import Mathlib

/-!
Verification development for the pusher repository (push-notification relay).

The definitions below are a shallow embedding of `src/server/src/server.js`:
the subscription store (Redis keyed by `subscription:<id>`) is a list of
key/value pairs, timestamps are milliseconds since the epoch as `Nat`, and
each HTTP handler becomes a function from its inputs and the store state to
an outcome together with the resulting store state.  The external push
delivery primitive (`webpush.sendNotification`) is abstracted as a function
from the target's id to a delivery result, since the payload sent is the
same for every target within one request.
-/

namespace Pusher

/-- Raw `keys` object submitted by the client.  The server never inspects the
fields, so each is optional here to model payloads that omit them. -/
structure RawKeys where
  p256dh : Option String
  auth : Option String
deriving DecidableEq

/-- Raw subscription payload of `POST /subscribe` (`req.body`).  `none`
models an absent field; for the string field, the empty string is falsy in
the source's validation. -/
structure RawSubscription where
  endpoint : Option String
  keys : Option RawKeys
deriving DecidableEq

/-- Persisted subscription record, as built by `createSubscriptionObject`.
Timestamps are milliseconds since the epoch. -/
structure SubRecord where
  id : String
  subscription : RawSubscription
  createdAt : Nat
  expiresAt : Nat
  isActive : Bool
deriving DecidableEq

/-- The fixed 365-day expiry horizon in milliseconds
(`365 * 24 * 60 * 60 * 1000` in the source). -/
def expiryHorizonMs : Nat := 365 * 24 * 60 * 60 * 1000

/-- Embedding of `createSubscriptionObject` (server.js lines 114-125): stamps
`createdAt = now`, `expiresAt = now + 365 days`, `isActive = true`.  The
generated UUID is passed in as `freshId`. -/
def createSubscriptionObject (freshId : String) (subscriptionData : RawSubscription)
    (now : Nat) : SubRecord :=
  { id := freshId
    subscription := subscriptionData
    createdAt := now
    expiresAt := now + 365 * 24 * 60 * 60 * 1000
    isActive := true }

/-- Embedding of `isSubscriptionExpired` (server.js lines 134-136):
`new Date() > new Date(expiresAt)`, i.e. strictly past expiry. -/
def isSubscriptionExpired (subscriptionObj : SubRecord) (now : Nat) : Bool :=
  decide (subscriptionObj.expiresAt < now)

/-- A value stored under a subscription key: either a serialized record that
parses back (`record`), or a string that fails `JSON.parse` (`malformed`). -/
inductive StoredVal where
  | record (r : SubRecord)
  | malformed (raw : String)
deriving DecidableEq

/-- The Redis store restricted to the `subscription:*` namespace: an
association list of key/value pairs (keys unique in any state the server
itself creates, since Redis keys are unique). -/
abbrev Store := List (String × StoredVal)

/-- Key layout used by the server: `subscription:<id>`. -/
def subKey (id : String) : String := "subscription:" ++ id

/-- Redis `GET key`. -/
def storeGet (key : String) (store : Store) : Option StoredVal :=
  match store with
  | [] => none
  | e :: rest => if e.1 = key then some e.2 else storeGet key rest

/-- Redis `DEL key` (the resulting state): removes every entry under `key`. -/
def storeDel (key : String) (store : Store) : Store :=
  match store with
  | [] => []
  | e :: rest => if e.1 = key then storeDel key rest else e :: storeDel key rest

/-- Redis `DEL key` return value: the number of keys removed. -/
def delCount (key : String) (store : Store) : Nat :=
  match store with
  | [] => 0
  | e :: rest => if e.1 = key then delCount key rest + 1 else delCount key rest

/-- Redis `SET key value`: overwrite semantics. -/
def storeSet (key : String) (v : StoredVal) (store : Store) : Store :=
  (key, v) :: storeDel key store

/-- Embedding of the `POST /subscribe` validation (server.js line 324):
`!subscriptionData || !subscriptionData.endpoint || !subscriptionData.keys`.
JavaScript truthiness: an absent or empty-string `endpoint` is falsy; `keys`
is truthy whenever it is any object, even one missing `p256dh`/`auth`. -/
def validateSubscription (subscriptionData : RawSubscription) : Bool :=
  match subscriptionData.endpoint with
  | none => false
  | some e => if e = "" then false else subscriptionData.keys.isSome

/-- Outcome of `POST /subscribe`: 201 with id, expiresAt and the total key
count, or 400 on invalid input. -/
inductive SubscribeOutcome where
  | created (id : String) (expiresAt : Nat) (totalSubscriptions : Nat)
  | invalidSubscription
deriving DecidableEq

/-- Embedding of the `POST /subscribe` handler (server.js lines 316-372):
validate, build the record, `SET` it under `subscription:<id>`, then report
the total number of `subscription:*` keys (no expiry filtering). -/
def subscribe (raw : RawSubscription) (freshId : String) (now : Nat) (store : Store) :
    SubscribeOutcome × Store :=
  if validateSubscription raw then
    let subscriptionObj := createSubscriptionObject freshId raw now
    let store' := storeSet (subKey freshId) (.record subscriptionObj) store
    (.created freshId subscriptionObj.expiresAt store'.length, store')
  else (.invalidSubscription, store)

/-- Outcome of `GET /subscriptions/:id`: 200 with the record, 404, or 500
when the stored value fails `JSON.parse`. -/
inductive GetOutcome where
  | found (r : SubRecord)
  | notFound
  | parseError
deriving DecidableEq

/-- Embedding of the `GET /subscriptions/:id` handler (server.js lines
235-267): missing key is 404; an expired record is deleted and reported 404;
otherwise the record is returned. -/
def getById (id : String) (now : Nat) (store : Store) : GetOutcome × Store :=
  match storeGet (subKey id) store with
  | none => (.notFound, store)
  | some (.malformed _) => (.parseError, store)
  | some (.record r) =>
    if isSubscriptionExpired r now then (.notFound, storeDel (subKey id) store)
    else (.found r, store)

/-- Loop body of the `GET /subscriptions` handler (server.js lines 198-216):
iterate the snapshot of entries, drop unparseable values, delete and drop
expired records, keep the rest, threading the store state through the
fire-and-forget deletes. -/
def listAllAux (now : Nat) (entries : List (String × StoredVal)) (store : Store) :
    List SubRecord × Store :=
  match entries with
  | [] => ([], store)
  | (_, .malformed _) :: rest => listAllAux now rest store
  | (key, .record r) :: rest =>
    if isSubscriptionExpired r now then listAllAux now rest (storeDel key store)
    else
      let p := listAllAux now rest store
      (r :: p.1, p.2)

/-- Embedding of the `GET /subscriptions` handler (server.js lines 180-224):
the snapshot processed is the store itself at list time. -/
def listAll (now : Nat) (store : Store) : List SubRecord × Store :=
  listAllAux now store store

/-- Outcome of `DELETE /unsubscribe/:id`: 200 with the id, or 404. -/
inductive UnsubscribeOutcome where
  | deleted (id : String)
  | notFound
deriving DecidableEq

/-- Embedding of the `DELETE /unsubscribe/:id` handler (server.js lines
277-301): Redis `DEL` returns the number of removed keys; zero maps to 404. -/
def unsubscribe (id : String) (store : Store) : UnsubscribeOutcome × Store :=
  let removed := delCount (subKey id) store
  let store' := storeDel (subKey id) store
  if removed = 0 then (.notFound, store') else (.deleted id, store')

/-- Result of one call to the external delivery primitive
(`webpush.sendNotification`): success, or a thrown error carrying a message
and an optional HTTP status code. -/
inductive DeliveryResult where
  | ok
  | err (message : String) (statusCode : Option Nat)
deriving DecidableEq

/-- A delivery behavior under which every attempt succeeds. -/
def deliverOk : String → DeliveryResult := fun _ => DeliveryResult.ok

/-- One entry of the per-target `results` array of `POST /send-notification`. -/
structure TargetResult where
  success : Bool
  id : String
  error : Option String
deriving DecidableEq

/-- Embedding of the catch-branch store effect in the per-target loop
(server.js lines 454-458): on HTTP 410 Gone or 404 Not Found the target's
key is deleted; any other failure leaves the store unchanged. -/
def handleFailure (key : String) (statusCode : Option Nat) (store : Store) : Store :=
  if statusCode = some 410 ∨ statusCode = some 404 then storeDel key store else store

/-- Helper for the loop: on a continuation that completed, push this
target's result entry onto `results` and add this target's contribution to
the `activeSubscriptions` counter; an escaped error passes through. -/
def consOk (tr : TargetResult) (da : Nat)
    (x : Except (String × Store) (List TargetResult × Nat × Store)) :
    Except (String × Store) (List TargetResult × Nat × Store) :=
  match x with
  | .error e => .error e
  | .ok (res, act, st) => .ok (tr :: res, act + da, st)

/-- Per-target loop of `POST /send-notification` (server.js lines 426-460),
over the snapshot of entries read at list time, threading the store state
and the `activeSubscriptions` counter.  An unparseable stored value models
the `JSON.parse` throw in the `try` body, which the catch block re-raises by
re-parsing the same string (line 450), escaping the loop: that is the
`Except.error` case, which carries the store as mutated so far. -/
def processTargets (deliver : String → DeliveryResult) (now : Nat) :
    List (String × StoredVal) → Store →
      Except (String × Store) (List TargetResult × Nat × Store)
  | [], store => .ok ([], 0, store)
  | (_, .malformed raw) :: _, store => .error (raw, store)
  | (key, .record r) :: rest, store =>
    if isSubscriptionExpired r now then
      consOk { success := false, id := r.id, error := some "Subscription expired" } 0
        (processTargets deliver now rest (storeDel key store))
    else
      match deliver r.id with
      | .ok =>
        consOk { success := true, id := r.id, error := none } 1
          (processTargets deliver now rest store)
      | .err msg code =>
        consOk { success := false, id := r.id, error := some msg } 1
          (processTargets deliver now rest (handleFailure key code store))

/-- Outcome of `POST /send-notification`: 404 when no keys exist, 500 when
the loop is escaped by a re-raised error, or the 200 aggregate report. -/
inductive SendOutcome where
  | noSubscribers
  | internalError (message : String)
  | report (successful failed totalProcessed activeSubscriptions : Nat)
      (results : List TargetResult)
deriving DecidableEq

/-- Embedding of the `POST /send-notification` handler (server.js lines
387-481): 404 iff the `subscription:*` key scan is empty; otherwise run the
per-target loop and aggregate `successful`/`failed` by filtering `results`. -/
def sendToAll (deliver : String → DeliveryResult) (now : Nat) (store : Store) :
    SendOutcome × Store :=
  if store.length = 0 then (.noSubscribers, store)
  else
    match processTargets deliver now store store with
    | .error (msg, st) => (.internalError msg, st)
    | .ok (results, act, st) =>
      (.report (results.filter (fun r => r.success)).length
               (results.filter (fun r => !r.success)).length
               store.length act results, st)

/-- Projection: the `failed` count of a send outcome, when it is a report. -/
def SendOutcome.failedCount : SendOutcome → Option Nat
  | .report _ f _ _ _ => some f
  | _ => none

/-- Projection: the `successful` count of a send outcome, when it is a report. -/
def SendOutcome.successCount : SendOutcome → Option Nat
  | .report s _ _ _ _ => some s
  | _ => none

/-- An entry holding a record that is live (not expired) at `now`. -/
def entryLive (now : Nat) (e : String × StoredVal) : Bool :=
  match e.2 with
  | .record r => !isSubscriptionExpired r now
  | .malformed _ => false

/-- An entry holding a record that is expired at `now`. -/
def entryExpired (now : Nat) (e : String × StoredVal) : Bool :=
  match e.2 with
  | .record r => isSubscriptionExpired r now
  | .malformed _ => false

/-- Number of live records in the store at `now`. -/
def liveEntryCount (now : Nat) (store : Store) : Nat :=
  store.countP (entryLive now)

/-- Number of expired records in the store at `now`. -/
def expiredEntryCount (now : Nat) (store : Store) : Nat :=
  store.countP (entryExpired now)

/-- Every stored value parses back to a record. -/
def wellFormed (store : Store) : Bool :=
  store.all (fun e => match e.2 with | .record _ => true | .malformed _ => false)

/-- Every stored value is a record that is expired at `now`. -/
def allExpiredEntries (now : Nat) (store : Store) : Bool :=
  store.all (entryExpired now)

/-- Embedding of the subscription count used by `GET /health` (server.js
lines 564-586) and `POST /subscribe`: the length of the `subscription:*`
key scan, with no expiry filtering. -/
def healthTotalSubscriptions (store : Store) : Nat :=
  (store.map Prod.fst).length

/-! ### Store lemmas -/

theorem storeGet_storeDel_self (k : String) (st : Store) :
    storeGet k (storeDel k st) = none := by
  induction st with
  | nil => rfl
  | cons e rest ih =>
    by_cases h : e.1 = k
    · simp [storeDel, h, ih]
    · simp [storeDel, storeGet, h, ih]

theorem storeGet_storeDel_ne (k k' : String) (st : Store) (h : k' ≠ k) :
    storeGet k' (storeDel k st) = storeGet k' st := by
  induction st with
  | nil => rfl
  | cons e rest ih =>
    by_cases he : e.1 = k
    · have hne : ¬ e.1 = k' := fun hk => h (hk ▸ he)
      rw [storeDel, if_pos he, ih, storeGet, if_neg hne]
    · rw [storeDel, if_neg he, storeGet, storeGet, ih]

theorem storeGet_storeDel_none (k k' : String) (st : Store)
    (h : storeGet k st = none) : storeGet k (storeDel k' st) = none := by
  by_cases hk : k = k'
  · subst hk; exact storeGet_storeDel_self k st
  · rw [storeGet_storeDel_ne k' k st hk]; exact h

theorem storeDel_of_get_none (k : String) (st : Store)
    (h : storeGet k st = none) : storeDel k st = st := by
  induction st with
  | nil => rfl
  | cons e rest ih =>
    by_cases he : e.1 = k
    · rw [storeGet, if_pos he] at h; exact absurd h (by simp)
    · rw [storeGet, if_neg he] at h
      simp [storeDel, he, ih h]

theorem storeGet_mem (k : String) (v : StoredVal) (st : Store)
    (h : storeGet k st = some v) : (k, v) ∈ st := by
  induction st with
  | nil => simp [storeGet] at h
  | cons e rest ih =>
    by_cases he : e.1 = k
    · rw [storeGet, if_pos he] at h
      have hv : e.2 = v := by injection h
      have : e = (k, v) := by
        obtain ⟨e1, e2⟩ := e
        simp only at he hv
        rw [he, hv]
      rw [this]
      exact List.mem_cons_self _ _
    · rw [storeGet, if_neg he] at h
      exact List.mem_cons_of_mem _ (ih h)

theorem delCount_eq_zero_iff (k : String) (st : Store) :
    delCount k st = 0 ↔ storeGet k st = none := by
  induction st with
  | nil => simp [delCount, storeGet]
  | cons e rest ih =>
    by_cases he : e.1 = k
    · simp [delCount, storeGet, he]
    · simp [delCount, storeGet, he, ih]

theorem filter_length_add {α : Type} (p : α → Bool) (l : List α) :
    (l.filter p).length + (l.filter (fun x => !p x)).length = l.length := by
  induction l with
  | nil => rfl
  | cons x xs ih =>
    cases h : p x with
    | true => simp [List.filter_cons, h]; omega
    | false => simp [List.filter_cons, h]; omega

/-! ### Dispatcher lemmas -/

theorem consOk_eq_ok (tr : TargetResult) (da : Nat)
    (x : Except (String × Store) (List TargetResult × Nat × Store))
    (res : List TargetResult) (act : Nat) (st' : Store) :
    consOk tr da x = .ok (res, act, st') ↔
      ∃ res₁ act₁, x = .ok (res₁, act₁, st') ∧ res = tr :: res₁ ∧ act = act₁ + da := by
  cases x with
  | error e => simp [consOk]
  | ok t =>
    obtain ⟨res₁, act₁, st₁⟩ := t
    simp [consOk, eq_comm, and_assoc]
    tauto

theorem processTargets_spec (deliver : String → DeliveryResult) (now : Nat)
    (entries : List (String × StoredVal)) (store : Store)
    (res : List TargetResult) (act : Nat) (st' : Store)
    (h : processTargets deliver now entries store = .ok (res, act, st')) :
    List.Forall₂ (fun e tr => ∀ r, e.2 = StoredVal.record r →
        isSubscriptionExpired r now = true →
        tr = { success := false, id := r.id, error := some "Subscription expired" })
      entries res := by
  induction entries generalizing store res act st' with
  | nil =>
    simp [processTargets] at h
    obtain ⟨h1, _, _⟩ := h
    subst h1
    exact List.Forall₂.nil
  | cons e rest ih =>
    obtain ⟨key, v⟩ := e
    cases v with
    | malformed raw =>
      rw [processTargets] at h
      exact absurd h (by simp)
    | record r =>
      rw [processTargets] at h
      cases hexp : isSubscriptionExpired r now with
      | true =>
        rw [if_pos hexp, consOk_eq_ok] at h
        obtain ⟨res₁, act₁, hrec, hres, _⟩ := h
        subst hres
        refine List.Forall₂.cons ?_ (ih _ _ _ _ hrec)
        intro r' hr' _
        have : r = r' := by injection hr'
        rw [← this]
      | false =>
        rw [if_neg (by simp [hexp])] at h
        cases hdel : deliver r.id with
        | ok =>
          rw [hdel, consOk_eq_ok] at h
          obtain ⟨res₁, act₁, hrec, hres, _⟩ := h
          subst hres
          refine List.Forall₂.cons ?_ (ih _ _ _ _ hrec)
          intro r' hr' hexp'
          have : r = r' := by injection hr'
          rw [← this] at hexp'
          rw [hexp] at hexp'
          exact absurd hexp' (by simp)
        | err msg code =>
          rw [hdel, consOk_eq_ok] at h
          obtain ⟨res₁, act₁, hrec, hres, _⟩ := h
          subst hres
          refine List.Forall₂.cons ?_ (ih _ _ _ _ hrec)
          intro r' hr' hexp'
          have : r = r' := by injection hr'
          rw [← this] at hexp'
          rw [hexp] at hexp'
          exact absurd hexp' (by simp)

theorem processTargets_allOk (now : Nat) (entries : List (String × StoredVal))
    (store : Store) (hwf : wellFormed entries = true) :
    ∃ res st', processTargets deliverOk now entries store =
        .ok (res, entries.countP (entryLive now), st')
      ∧ (res.filter (fun r => r.success)).length = entries.countP (entryLive now)
      ∧ (res.filter (fun r => !r.success)).length = entries.countP (entryExpired now)
      ∧ res.length = entries.length := by
  induction entries generalizing store with
  | nil => exact ⟨[], store, rfl, rfl, rfl, rfl⟩
  | cons e rest ih =>
    obtain ⟨key, v⟩ := e
    cases v with
    | malformed raw => simp [wellFormed, List.all_cons] at hwf
    | record r =>
      have hwf' : wellFormed rest = true := by
        simpa [wellFormed, List.all_cons] using hwf
      cases hexp : isSubscriptionExpired r now with
      | true =>
        obtain ⟨res₁, st₁, h1, h2, h3, h4⟩ := ih (storeDel key store) hwf'
        have hcl : ((key, StoredVal.record r) :: rest).countP (entryLive now) =
            rest.countP (entryLive now) := by
          simp [List.countP_cons, entryLive, hexp]
        have hce : ((key, StoredVal.record r) :: rest).countP (entryExpired now) =
            rest.countP (entryExpired now) + 1 := by
          simp [List.countP_cons, entryExpired, hexp]
        refine ⟨{ success := false, id := r.id, error := some "Subscription expired" } :: res₁,
          st₁, ?_, ?_, ?_, ?_⟩
        · rw [processTargets, if_pos hexp, hcl, consOk_eq_ok]
          exact ⟨res₁, rest.countP (entryLive now), h1, rfl, rfl⟩
        · simp only [List.filter_cons, hcl]
          simpa using h2
        · simp only [List.filter_cons, hce]
          simp
          omega
        · simp [h4]
      | false =>
        obtain ⟨res₁, st₁, h1, h2, h3, h4⟩ := ih store hwf'
        have hcl : ((key, StoredVal.record r) :: rest).countP (entryLive now) =
            rest.countP (entryLive now) + 1 := by
          simp [List.countP_cons, entryLive, hexp]
        have hce : ((key, StoredVal.record r) :: rest).countP (entryExpired now) =
            rest.countP (entryExpired now) := by
          simp [List.countP_cons, entryExpired, hexp]
        refine ⟨{ success := true, id := r.id, error := none } :: res₁,
          st₁, ?_, ?_, ?_, ?_⟩
        · rw [processTargets, if_neg (by simp [hexp])]
          show consOk { success := true, id := r.id, error := none } 1
              (processTargets deliverOk now rest store) = _
          rw [hcl, consOk_eq_ok]
          exact ⟨res₁, rest.countP (entryLive now), h1, rfl, rfl⟩
        · simp only [List.filter_cons, hcl]
          simp
          omega
        · simp only [List.filter_cons, hce]
          simpa using h3
        · simp [h4]

theorem processTargets_irrelevant (now : Nat) (entries : List (String × StoredVal))
    (store : Store) (hall : allExpiredEntries now entries = true)
    (d₁ d₂ : String → DeliveryResult) :
    processTargets d₁ now entries store = processTargets d₂ now entries store := by
  induction entries generalizing store with
  | nil => rfl
  | cons e rest ih =>
    obtain ⟨key, v⟩ := e
    have h1 : entryExpired now (key, v) = true ∧ allExpiredEntries now rest = true := by
      simpa [allExpiredEntries, List.all_cons] using hall
    cases v with
    | malformed raw => simp [entryExpired] at h1
    | record r =>
      have hexp : isSubscriptionExpired r now = true := by
        simpa [entryExpired] using h1.1
      rw [processTargets, processTargets, if_pos hexp, if_pos hexp, ih _ h1.2]

theorem allExpired_facts (now : Nat) (store : Store)
    (h : allExpiredEntries now store = true) :
    wellFormed store = true ∧ store.countP (entryLive now) = 0
      ∧ store.countP (entryExpired now) = store.length := by
  induction store with
  | nil => exact ⟨rfl, rfl, rfl⟩
  | cons e rest ih =>
    obtain ⟨key, v⟩ := e
    have h1 : entryExpired now (key, v) = true ∧ allExpiredEntries now rest = true := by
      simpa [allExpiredEntries, List.all_cons] using h
    obtain ⟨hwf, hl, he⟩ := ih h1.2
    cases v with
    | malformed raw => simp [entryExpired] at h1
    | record r =>
      have hexp : isSubscriptionExpired r now = true := by
        simpa [entryExpired] using h1.1
      refine ⟨?_, ?_, ?_⟩
      · simpa [wellFormed, List.all_cons] using hwf
      · simp [List.countP_cons, entryLive, hexp, hl]
      · simp [List.countP_cons, entryExpired, hexp, he]

theorem wf_partition (now : Nat) (store : Store) (h : wellFormed store = true) :
    store.countP (entryLive now) + store.countP (entryExpired now) = store.length := by
  induction store with
  | nil => rfl
  | cons e rest ih =>
    obtain ⟨key, v⟩ := e
    cases v with
    | malformed raw => simp [wellFormed, List.all_cons] at h
    | record r =>
      have h' : wellFormed rest = true := by
        simpa [wellFormed, List.all_cons] using h
      have := ih h'
      cases hexp : isSubscriptionExpired r now with
      | true => simp [List.countP_cons, entryLive, entryExpired, hexp]; omega
      | false => simp [List.countP_cons, entryLive, entryExpired, hexp]; omega

/-! ### List-all lemmas -/

theorem listAllAux_mem_live (now : Nat) (entries : List (String × StoredVal))
    (store : Store) (x : SubRecord) (hx : x ∈ (listAllAux now entries store).1) :
    isSubscriptionExpired x now = false := by
  induction entries generalizing store with
  | nil => simp [listAllAux] at hx
  | cons e rest ih =>
    obtain ⟨key, v⟩ := e
    cases v with
    | malformed raw =>
      rw [listAllAux] at hx
      exact ih _ hx
    | record r =>
      rw [listAllAux] at hx
      cases hexp : isSubscriptionExpired r now with
      | true =>
        rw [if_pos hexp] at hx
        exact ih _ hx
      | false =>
        rw [if_neg (by simp [hexp])] at hx
        simp only [List.mem_cons] at hx
        cases hx with
        | inl hh => rw [hh]; exact hexp
        | inr hh => exact ih _ hh

theorem listAllAux_get_none (now : Nat) (entries : List (String × StoredVal))
    (store : Store) (k : String) (h : storeGet k store = none) :
    storeGet k (listAllAux now entries store).2 = none := by
  induction entries generalizing store with
  | nil => simpa [listAllAux] using h
  | cons e rest ih =>
    obtain ⟨key, v⟩ := e
    cases v with
    | malformed raw => rw [listAllAux]; exact ih _ h
    | record r =>
      rw [listAllAux]
      cases hexp : isSubscriptionExpired r now with
      | true =>
        rw [if_pos rfl]
        exact ih _ (storeGet_storeDel_none k key store h)
      | false =>
        rw [if_neg (by simp)]
        exact ih _ h

theorem listAllAux_expired_deleted (now : Nat) (entries : List (String × StoredVal))
    (store : Store) (k : String) (r : SubRecord)
    (hmem : (k, StoredVal.record r) ∈ entries)
    (hexp : isSubscriptionExpired r now = true) :
    storeGet k (listAllAux now entries store).2 = none := by
  induction entries generalizing store with
  | nil => simp at hmem
  | cons e rest ih =>
    rw [List.mem_cons] at hmem
    cases hmem with
    | inl hh =>
      rw [← hh, listAllAux, if_pos hexp]
      exact listAllAux_get_none now rest _ k (storeGet_storeDel_self k store)
    | inr hh =>
      obtain ⟨key, v⟩ := e
      cases v with
      | malformed raw => rw [listAllAux]; exact ih _ hh
      | record r' =>
        rw [listAllAux]
        cases hexp' : isSubscriptionExpired r' now with
        | true => rw [if_pos rfl]; exact ih _ hh
        | false => rw [if_neg (by simp)]; exact ih _ hh

/-! ### Concrete example values used by counterexamples and witnesses -/

/-- A subscription record that is still live at time 50 (expires at 100). -/
def exLiveRecord : SubRecord :=
  { id := "a"
    subscription :=
      { endpoint := some "https://push.example/abc"
        keys := some { p256dh := some "k1", auth := some "a1" } }
    createdAt := 0, expiresAt := 100, isActive := true }

/-- A subscription record that is expired at time 50 (expired at 3). -/
def exExpiredRecord : SubRecord :=
  { id := "b"
    subscription :=
      { endpoint := some "https://push.example/def"
        keys := some { p256dh := some "k2", auth := some "a2" } }
    createdAt := 0, expiresAt := 3, isActive := true }

/-- A store holding one live and one expired record. -/
def exStoreMixed : Store :=
  [(subKey "a", .record exLiveRecord), (subKey "b", .record exExpiredRecord)]

/-- A store holding only an expired record. -/
def exStoreExpiredOnly : Store := [(subKey "b", .record exExpiredRecord)]

/-- A store holding one unreadable value followed by one live record. -/
def exStoreMalformed : Store :=
  [("subscription:bad", .malformed "not-json"), (subKey "a", .record exLiveRecord)]

/-- A subscribe payload whose `keys` object lacks both `p256dh` and `auth`. -/
def exRawNoCrypto : RawSubscription :=
  { endpoint := some "https://push.example/abc"
    keys := some { p256dh := none, auth := none } }

/-- A fully valid subscribe payload. -/
def exRawValid : RawSubscription :=
  { endpoint := some "https://push.example/abc"
    keys := some { p256dh := some "k1", auth := some "a1" } }

/-- A delivery behavior under which every attempt fails with HTTP 410 Gone. -/
def exDeliverGone : String → DeliveryResult := fun _ => .err "Gone" (some 410)

/-- Per-target results of a `sendToAll` over `exStoreMixed` with all
deliveries succeeding. -/
def exResultsMixed : List TargetResult :=
  [{ success := true, id := "a", error := none },
   { success := false, id := "b", error := some "Subscription expired" }]

/-- The store left behind by that run: the expired record was deleted. -/
def exStoreAfterMixed : Store := [(subKey "a", .record exLiveRecord)]

/-! ### Claim theorems -/

/-- C7: for every record produced by the record builder on a valid
subscribe, `expiresAt - createdAt` equals exactly the fixed 365-day horizon
(`365 * 24 * 60 * 60 * 1000` milliseconds), and consequently `expiresAt` is
strictly greater than `createdAt`. -/
theorem createSubscriptionObject_horizon (freshId : String)
    (subscriptionData : RawSubscription) (now : Nat) :
    (createSubscriptionObject freshId subscriptionData now).expiresAt
        - (createSubscriptionObject freshId subscriptionData now).createdAt
      = 365 * 24 * 60 * 60 * 1000
    ∧ (createSubscriptionObject freshId subscriptionData now).createdAt
        < (createSubscriptionObject freshId subscriptionData now).expiresAt := by
  simp only [createSubscriptionObject]
  omega

/-- C4: during `sendToAll`, a delivery failure whose status code is 410
(gone) or 404 (not found) for a live target causes exactly that target's
record to be deleted from the store, while every other key is unchanged and
still present; any other delivery failure leaves the store entirely
unchanged, so the target's record is retained. -/
theorem dispatch_gone_deletes_only_target (deliver : String → DeliveryResult)
    (now : Nat) (key : String) (r : SubRecord) (store : Store) (msg : String)
    (code : Option Nat)
    (hlive : isSubscriptionExpired r now = false)
    (hfail : deliver r.id = .err msg code) :
    processTargets deliver now [(key, .record r)] store =
      .ok ([{ success := false, id := r.id, error := some msg }], 1,
        handleFailure key code store)
    ∧ ((code = some 410 ∨ code = some 404) →
        storeGet key (handleFailure key code store) = none
        ∧ ∀ k, k ≠ key → storeGet k (handleFailure key code store) = storeGet k store)
    ∧ (¬(code = some 410 ∨ code = some 404) → handleFailure key code store = store) := by
  refine ⟨?_, ?_, ?_⟩
  · rw [processTargets, if_neg (by simp [hlive]), hfail]
    rfl
  · intro hc
    rw [handleFailure, if_pos hc]
    exact ⟨storeGet_storeDel_self key store,
      fun k hk => storeGet_storeDel_ne key k store hk⟩
  · intro hc
    rw [handleFailure, if_neg hc]

/-- Witness for C4 at a concrete input: a 410 failure for the live target
deletes exactly its key and leaves the other key's value readable. -/
theorem dispatch_gone_deletes_only_target_witness :
    storeGet (subKey "a") (handleFailure (subKey "a") (some 410) exStoreMixed) = none
    ∧ storeGet (subKey "b") (handleFailure (subKey "a") (some 410) exStoreMixed)
        = storeGet (subKey "b") exStoreMixed := by
  have h := dispatch_gone_deletes_only_target exDeliverGone 50 (subKey "a")
    exLiveRecord exStoreMixed "Gone" (some 410) (by decide) (by decide)
  exact ⟨(h.2.1 (Or.inl rfl)).1, (h.2.1 (Or.inl rfl)).2 (subKey "b") (by decide)⟩

/-- C8: `DELETE /unsubscribe/:id` succeeds with the id exactly when a record
with that id existed in the store, and removes it; for a nonexistent id it
yields not-found; hence unsubscribing the same id twice in a row yields
success then not-found. -/
theorem unsubscribe_existed_iff (id : String) (store : Store) :
    ((unsubscribe id store).1 = .deleted id ↔ (storeGet (subKey id) store).isSome = true)
    ∧ storeGet (subKey id) (unsubscribe id store).2 = none
    ∧ ((storeGet (subKey id) store).isSome = true →
        (unsubscribe id store).1 = .deleted id
        ∧ (unsubscribe id (unsubscribe id store).2).1 = .notFound) := by
  have hiff : (storeGet (subKey id) store).isSome = true ↔
      ¬ delCount (subKey id) store = 0 := by
    rw [delCount_eq_zero_iff]
    cases storeGet (subKey id) store <;> simp
  by_cases hz : delCount (subKey id) store = 0
  · have hnone : storeGet (subKey id) store = none :=
      (delCount_eq_zero_iff _ _).mp hz
    refine ⟨?_, ?_, ?_⟩
    · rw [unsubscribe]
      simp only [hz, if_pos]
      simp [hnone]
    · rw [unsubscribe]
      simp only [hz, if_pos]
      exact storeGet_storeDel_self _ _
    · intro hs
      exact absurd hs (by simp [hnone])
  · refine ⟨?_, ?_, ?_⟩
    · rw [unsubscribe]
      simp only [hz, if_neg]
      simp [hiff, hz]
    · rw [unsubscribe]
      simp only [hz, if_neg]
      exact storeGet_storeDel_self _ _
    · intro _
      constructor
      · rw [unsubscribe]; simp [hz]
      · have hafter : storeGet (subKey id) (unsubscribe id store).2 = none := by
          rw [unsubscribe]
          simp only [hz, if_neg]
          exact storeGet_storeDel_self _ _
        have hz' : delCount (subKey id) (unsubscribe id store).2 = 0 :=
          (delCount_eq_zero_iff _ _).mpr hafter
        rw [unsubscribe]
        simp [hz']

/-- Witness for C8 at a concrete input: unsubscribing an existing id
succeeds, then a second unsubscribe of the same id yields not-found. -/
theorem unsubscribe_existed_iff_witness :
    (storeGet (subKey "a") exStoreMixed).isSome = true
    ∧ ((unsubscribe "a" exStoreMixed).1 = .deleted "a"
        ∧ (unsubscribe "a" (unsubscribe "a" exStoreMixed).2).1 = .notFound) :=
  ⟨by decide, (unsubscribe_existed_iff "a" exStoreMixed).2.2 (by decide)⟩

/-- C1 counterexample: a store with exactly one live record and one expired
record, with every delivery attempt succeeding, yields `failed = 1`, not
`failed = 0`, so `successful + failed` exceeds the number of live targets —
the claim's aggregate is falsified whenever expired records are present. -/
theorem sendToAll_live_counts_cex :
    liveEntryCount 50 exStoreMixed = 1
    ∧ (sendToAll deliverOk 50 exStoreMixed).1.failedCount ≠ some 0
    ∧ (sendToAll deliverOk 50 exStoreMixed).1.failedCount = some 1
    ∧ (sendToAll deliverOk 50 exStoreMixed).1.successCount = some 1 := by
  decide

/-- C1 (amended): for a store of N live and E expired parseable records, if
every delivery attempt succeeds then `sendToAll` reports `successful = N`
and `failed = E`, so `successful + failed` equals the total number of
stored records processed (live plus expired), which collapses to the
original claim exactly when E = 0. -/
theorem sendToAll_allOk_report (now : Nat) (store : Store)
    (hwf : wellFormed store = true) (hne : store ≠ []) :
    (∃ res st', sendToAll deliverOk now store =
        (.report (liveEntryCount now store) (expiredEntryCount now store)
          store.length (liveEntryCount now store) res, st'))
    ∧ liveEntryCount now store + expiredEntryCount now store = store.length := by
  simp only [liveEntryCount, expiredEntryCount]
  obtain ⟨res, st', h1, h2, h3, h4⟩ := processTargets_allOk now store store hwf
  refine ⟨⟨res, st', ?_⟩, wf_partition now store hwf⟩
  rw [sendToAll, if_neg (fun h0 => hne (List.length_eq_zero.mp h0)), h1]
  dsimp only
  rw [h2, h3]

/-- Witness for C1 (amended) at a concrete input: one live and one expired
record, all deliveries succeeding. -/
theorem sendToAll_allOk_report_witness :
    (∃ res st', sendToAll deliverOk 50 exStoreMixed =
        (.report (liveEntryCount 50 exStoreMixed) (expiredEntryCount 50 exStoreMixed)
          exStoreMixed.length (liveEntryCount 50 exStoreMixed) res, st'))
    ∧ liveEntryCount 50 exStoreMixed + expiredEntryCount 50 exStoreMixed
        = exStoreMixed.length :=
  sendToAll_allOk_report 50 exStoreMixed (by decide) (by decide)

/-- C2 counterexample: a store holding only an expired record does not
signal no-subscribers (404); the request instead completes with a 200
report of zero successes and one failure. -/
theorem sendToAll_onlyExpired_cex :
    (sendToAll deliverOk 50 exStoreExpiredOnly).1 ≠ .noSubscribers
    ∧ (sendToAll deliverOk 50 exStoreExpiredOnly).1 = .report 0 1 1 0
        [{ success := false, id := "b", error := some "Subscription expired" }] := by
  decide

/-- C2 (amended): `sendToAll` signals no-subscribers (mapped to 404) exactly
when the store contains no subscription keys at all; when every stored
record is expired but at least one key exists, the request instead completes
with a report of `successful = 0`, `failed = ` the number of records, and no
delivery is attempted — the outcome is independent of the delivery
behavior. -/
theorem sendToAll_noSubscribers_amended (deliver : String → DeliveryResult)
    (now : Nat) (store : Store) :
    (store = [] → sendToAll deliver now store = (.noSubscribers, store))
    ∧ (allExpiredEntries now store = true → store ≠ [] →
        (∃ res st', sendToAll deliver now store =
          (.report 0 store.length store.length 0 res, st'))
        ∧ ∀ d₂, sendToAll d₂ now store = sendToAll deliver now store) := by
  constructor
  · intro h; subst h; rfl
  · intro hall hne
    have hirr : ∀ d₂ : String → DeliveryResult,
        sendToAll d₂ now store = sendToAll deliver now store := by
      intro d₂
      rw [sendToAll, sendToAll, processTargets_irrelevant now store store hall d₂ deliver]
    refine ⟨?_, hirr⟩
    obtain ⟨hwf, hl, he⟩ := allExpired_facts now store hall
    obtain ⟨res, st', h1, h2, h3, h4⟩ := processTargets_allOk now store store hwf
    refine ⟨res, st', ?_⟩
    rw [← hirr deliverOk]
    rw [sendToAll, if_neg (fun h0 => hne (List.length_eq_zero.mp h0)), h1]
    dsimp only
    rw [h2, h3, hl, he]

/-- Witness for C2 (amended) at a concrete input: a store holding only an
expired record. -/
theorem sendToAll_noSubscribers_amended_witness :
    (∃ res st', sendToAll deliverOk 50 exStoreExpiredOnly =
      (.report 0 exStoreExpiredOnly.length exStoreExpiredOnly.length 0 res, st'))
    ∧ ∀ d₂, sendToAll d₂ 50 exStoreExpiredOnly = sendToAll deliverOk 50 exStoreExpiredOnly :=
  (sendToAll_noSubscribers_amended deliverOk 50 exStoreExpiredOnly).2
    (by decide) (by decide)

/-- C3 counterexample: a payload whose `keys` object contains neither
`p256dh` nor `auth` is nevertheless persisted (201 with a fresh id and a
new store entry), falsifying the claim that persistence requires those two
string fields. -/
theorem subscribe_missing_crypto_fields_cex :
    exRawNoCrypto.keys = some { p256dh := none, auth := none }
    ∧ (subscribe exRawNoCrypto "id1" 0 []).1 = .created "id1" 31536000000 1
    ∧ (subscribe exRawNoCrypto "id1" 0 []).2 ≠ [] := by
  decide

/-- C3 (amended): a record is persisted if and only if the submitted
`endpoint` is present and non-empty and `keys` is present (any object is
accepted — the `p256dh`/`auth` contents are never validated); otherwise the
invalid-subscription outcome (400) results and the store is unchanged. -/
theorem subscribe_validation (raw : RawSubscription) (freshId : String)
    (now : Nat) (store : Store) :
    (validateSubscription raw = true ↔
      (∃ e, raw.endpoint = some e ∧ e ≠ "") ∧ raw.keys.isSome = true)
    ∧ (validateSubscription raw = true →
        subscribe raw freshId now store =
          (.created freshId (now + 365 * 24 * 60 * 60 * 1000)
            (storeSet (subKey freshId)
              (.record (createSubscriptionObject freshId raw now)) store).length,
           storeSet (subKey freshId)
             (.record (createSubscriptionObject freshId raw now)) store))
    ∧ (validateSubscription raw = false →
        subscribe raw freshId now store = (.invalidSubscription, store)) := by
  refine ⟨?_, ?_, ?_⟩
  · cases hre : raw.endpoint with
    | none => simp [validateSubscription, hre]
    | some e =>
      by_cases he : e = ""
      · simp [validateSubscription, hre, he]
      · simp [validateSubscription, hre, he]
  · intro hv
    rw [subscribe, if_pos hv]
    rfl
  · intro hv
    rw [subscribe, if_neg (by simp [hv])]

/-- Witness for C3 (amended) at a concrete input: a fully valid payload is
persisted with the expected record. -/
theorem subscribe_validation_witness :
    validateSubscription exRawValid = true
    ∧ subscribe exRawValid "id1" 0 [] =
        (.created "id1" (0 + 365 * 24 * 60 * 60 * 1000)
          (storeSet (subKey "id1")
            (.record (createSubscriptionObject "id1" exRawValid 0)) []).length,
         storeSet (subKey "id1")
           (.record (createSubscriptionObject "id1" exRawValid 0)) []) :=
  ⟨by decide, (subscribe_validation exRawValid "id1" 0 []).2.1 (by decide)⟩

/-- C6 (code bug): a single unreadable stored value aborts the whole
`sendToAll` run — the catch block re-parses the unparseable string, the
re-raised error escapes the per-target loop, and the request ends in the
top-level 500 handler with no per-target results at all, even though the
second stored record was live and deliverable, as the second conjunct
shows by running the same delivery behavior on that record alone. -/
theorem sendToAll_malformed_value_aborts :
    sendToAll deliverOk 50 exStoreMalformed = (.internalError "not-json", exStoreMalformed)
    ∧ (sendToAll deliverOk 50 [(subKey "a", .record exLiveRecord)]).1
        = .report 1 0 1 1 [{ success := true, id := "a", error := none }] := by
  decide

/-- C5: a record whose `expiresAt` is strictly in the past at read time is
never returned by get-by-id or list-all; the first such read deletes it from
the store, and the operation is idempotent — a second identical get-by-id
yields the same not-found outcome on the already-deleted store, every
element list-all returns is non-expired (so the expired record is absent),
list-all's store afterwards no longer has the key, and a repeated list-all
still omits the record. -/
theorem expired_never_returned_and_deleted (id : String) (r : SubRecord)
    (now : Nat) (store : Store)
    (hget : storeGet (subKey id) store = some (.record r))
    (hexp : isSubscriptionExpired r now = true) :
    getById id now store = (.notFound, storeDel (subKey id) store)
    ∧ getById id now (storeDel (subKey id) store)
        = (.notFound, storeDel (subKey id) store)
    ∧ (∀ x ∈ (listAll now store).1, isSubscriptionExpired x now = false)
    ∧ r ∉ (listAll now store).1
    ∧ storeGet (subKey id) (listAll now store).2 = none
    ∧ r ∉ (listAll now (listAll now store).2).1 := by
  have hlive : ∀ x ∈ (listAll now store).1, isSubscriptionExpired x now = false :=
    fun x hx => listAllAux_mem_live now store store x hx
  refine ⟨?_, ?_, hlive, ?_, ?_, ?_⟩
  · rw [getById, hget]
    simp [hexp]
  · rw [getById, storeGet_storeDel_self]
  · intro hmem
    rw [hlive r hmem] at hexp
    exact absurd hexp (by simp)
  · exact listAllAux_expired_deleted now store store (subKey id) r
      (storeGet_mem _ _ _ hget) hexp
  · intro hmem
    have := listAllAux_mem_live now (listAll now store).2 (listAll now store).2 r hmem
    rw [this] at hexp
    exact absurd hexp (by simp)

/-- Witness for C5 at a concrete input: an expired record in a two-record
store. -/
theorem expired_never_returned_and_deleted_witness :
    getById "b" 50 exStoreMixed = (.notFound, storeDel (subKey "b") exStoreMixed)
    ∧ getById "b" 50 (storeDel (subKey "b") exStoreMixed)
        = (.notFound, storeDel (subKey "b") exStoreMixed)
    ∧ (∀ x ∈ (listAll 50 exStoreMixed).1, isSubscriptionExpired x 50 = false)
    ∧ exExpiredRecord ∉ (listAll 50 exStoreMixed).1
    ∧ storeGet (subKey "b") (listAll 50 exStoreMixed).2 = none
    ∧ exExpiredRecord ∉ (listAll 50 (listAll 50 exStoreMixed).2).1 :=
  expired_never_returned_and_deleted "b" exExpiredRecord 50 exStoreMixed
    (by decide) (by decide)

/-- C9: in every completed `sendToAll` run, each stored subscription key
produces exactly one entry in the per-target results (an expired record
produces a failed entry with error message "Subscription expired"), so the
response satisfies `successful + failed = totalProcessed = ` the total
number of stored subscription keys at list time, expired records
included. -/
theorem sendToAll_counts_all_keys (deliver : String → DeliveryResult)
    (now : Nat) (store : Store) (s f t a : Nat) (res : List TargetResult)
    (st' : Store)
    (h : sendToAll deliver now store = (.report s f t a res, st')) :
    res.length = store.length ∧ s + f = t ∧ t = store.length
    ∧ List.Forall₂ (fun e tr => ∀ r, e.2 = StoredVal.record r →
        isSubscriptionExpired r now = true →
        tr = { success := false, id := r.id, error := some "Subscription expired" })
      store res := by
  rw [sendToAll] at h
  by_cases h0 : store.length = 0
  · rw [if_pos h0] at h
    exact absurd h (by simp)
  · rw [if_neg h0] at h
    cases hpt : processTargets deliver now store store with
    | error e =>
      obtain ⟨msg, stx⟩ := e
      rw [hpt] at h
      exact absurd h (by simp)
    | ok triple =>
      obtain ⟨res₁, act₁, st₁⟩ := triple
      rw [hpt] at h
      simp only [Prod.mk.injEq, SendOutcome.report.injEq] at h
      obtain ⟨⟨hs, hf, ht, ha, hres⟩, hst⟩ := h
      subst hres
      have hfa := processTargets_spec deliver now store store res₁ act₁ st₁ hpt
      have hlen : res₁.length = store.length := hfa.length_eq.symm
      refine ⟨hlen, ?_, ht.symm, hfa⟩
      rw [← hs, ← hf, ← ht, filter_length_add]
      exact hlen

/-- Witness for C9 at a concrete input: the mixed store under all-successful
delivery completes with two result entries for two stored keys. -/
theorem sendToAll_counts_all_keys_witness :
    exResultsMixed.length = exStoreMixed.length ∧ 1 + 1 = 2
    ∧ 2 = exStoreMixed.length
    ∧ List.Forall₂ (fun e tr => ∀ r, e.2 = StoredVal.record r →
        isSubscriptionExpired r 50 = true →
        tr = { success := false, id := r.id, error := some "Subscription expired" })
      exStoreMixed exResultsMixed :=
  sendToAll_counts_all_keys deliverOk 50 exStoreMixed 1 1 2 1 exResultsMixed
    exStoreAfterMixed (by decide)

/-- C10: the `totalSubscriptions` value returned by `POST /subscribe` (201)
and by `GET /health` is the raw count of `subscription:*` keys with no
expiry filtering, so expired-but-not-yet-deleted records are included: the
health count equals live plus expired record counts, and the count reported
by a successful subscribe with a fresh id equals that sum plus one. -/
theorem totalSubscriptions_includes_expired (now : Nat) (store : Store)
    (raw : RawSubscription) (freshId : String)
    (hwf : wellFormed store = true)
    (hv : validateSubscription raw = true)
    (hfresh : storeGet (subKey freshId) store = none) :
    healthTotalSubscriptions store
        = liveEntryCount now store + expiredEntryCount now store
    ∧ (subscribe raw freshId now store).1 =
        .created freshId (now + 365 * 24 * 60 * 60 * 1000)
          (liveEntryCount now store + expiredEntryCount now store + 1) := by
  have hpart := wf_partition now store hwf
  have hhealth : healthTotalSubscriptions store
      = liveEntryCount now store + expiredEntryCount now store := by
    simp only [healthTotalSubscriptions, liveEntryCount, expiredEntryCount,
      List.length_map]
    omega
  refine ⟨hhealth, ?_⟩
  have hlen : (storeSet (subKey freshId)
      (StoredVal.record (createSubscriptionObject freshId raw now)) store).length
      = store.length + 1 := by
    rw [storeSet, storeDel_of_get_none _ _ hfresh]
    simp
  rw [subscribe, if_pos hv]
  simp only []
  rw [hlen]
  simp only [liveEntryCount, expiredEntryCount] at hpart ⊢
  rw [hpart]
  rfl

/-- Witness for C10 at a concrete input: the mixed store contains one
expired record, and both reported counts include it. -/
theorem totalSubscriptions_includes_expired_witness :
    healthTotalSubscriptions exStoreMixed
        = liveEntryCount 50 exStoreMixed + expiredEntryCount 50 exStoreMixed
    ∧ (subscribe exRawValid "c" 50 exStoreMixed).1 =
        .created "c" (50 + 365 * 24 * 60 * 60 * 1000)
          (liveEntryCount 50 exStoreMixed + expiredEntryCount 50 exStoreMixed + 1) :=
  totalSubscriptions_includes_expired 50 exStoreMixed exRawValid "c"
    (by decide) (by decide) (by decide)

end Pusher
